import Mathlib

/-!
Shallow embedding of the `ProductConfigurationService` of the
marcus-bike-shop repository (`src/services/product_configuration.js`),
together with the relational rows it queries (`src/models/data_model.sql`,
`PricingRules`/`PricingRuleConditions` as seeded by `src/db/seed.js`).

The service talks to SQLite through a wrapper that expands `IN (?)`
clauses with array parameters into one placeholder per element, so every
query is modelled here as list filtering over the table rows, with SQL's
standard operator precedence (`AND` binds tighter than `OR`) and
`GROUP BY`/`HAVING` semantics reproduced literally.  Prices
(`DECIMAL(10,2)` columns and JavaScript number arithmetic) are modelled
as exact rationals.
-/

/-- Row of the `Products` table (only the columns the service reads). -/
structure Product where
  id : Nat
  base_price : ℚ
deriving DecidableEq, Repr

/-- Row of the `PartTypes` table. -/
structure PartType where
  id : Nat
  name : String
  required : Bool
deriving DecidableEq, Repr

/-- Row of the `ProductPartTypes` link table. -/
structure ProductPartType where
  product_id : Nat
  part_type_id : Nat
deriving DecidableEq, Repr

/-- Row of the `PartOptions` table. -/
structure PartOption where
  id : Nat
  part_type_id : Nat
  base_price : ℚ
  active : Bool
deriving DecidableEq, Repr

/-- Row of the `Inventory` table. -/
structure InventoryRecord where
  part_option_id : Nat
  quantity : Int
  in_stock : Bool
  expected_restock_date : Option String
deriving DecidableEq, Repr

/-- Row of the `IncompatibilityRules` table. -/
structure IncompatibilityRule where
  id : Nat
  active : Bool
deriving DecidableEq, Repr

/-- Row of the `RuleConditions` table: a directed incompatibility edge
belonging to a rule. -/
structure RuleCondition where
  rule_id : Nat
  part_option_id : Nat
  incompatible_with_part_option_id : Nat
deriving DecidableEq, Repr

/-- Row of the `PricingRules` table (columns the service selects). -/
structure PricingRule where
  id : Nat
  price_adjustment : ℚ
  is_percentage : Bool
  active : Bool
deriving DecidableEq, Repr

/-- Row of the `PricingRuleConditions` table. -/
structure PricingRuleCondition where
  pricing_rule_id : Nat
  part_option_id : Nat
deriving DecidableEq, Repr

/-- The relational store the service queries. -/
structure DB where
  products : List Product
  partTypes : List PartType
  productPartTypes : List ProductPartType
  partOptions : List PartOption
  inventory : List InventoryRecord
  incompatibilityRules : List IncompatibilityRule
  ruleConditions : List RuleCondition
  pricingRules : List PricingRule
  pricingRuleConditions : List PricingRuleCondition
deriving Repr

/-- An element of the `currentSelections` / `selectedOptions` arrays the
service receives: an object with a `partOptionId` field. -/
structure Selection where
  partOptionId : Nat
deriving DecidableEq, Repr

/-- Does the rule condition row join with an active `IncompatibilityRules`
row?  (`JOIN IncompatibilityRules ir ON rc.rule_id = ir.id ... AND
ir.active = TRUE`.) -/
def ruleIsActive (db : DB) (ruleId : Nat) : Bool :=
  db.incompatibilityRules.any (fun ir => ir.id == ruleId && ir.active)

/-- Embedding of `filterIncompatibleOptions(options, currentSelections)`.
The SQL keeps rule-condition rows whose `part_option_id` is among the
candidate option ids, whose `incompatible_with_part_option_id` is among
the selected ids, and whose rule is active; the candidates whose id shows
up as such a `part_option_id` are dropped. -/
def filterIncompatibleOptions (db : DB) (options : List PartOption)
    (currentSelections : List Selection) : List PartOption :=
  if currentSelections.length = 0 ∨ options.length = 0 then
    options
  else
    let optionIds := options.map (fun o => o.id)
    let selectionIds := currentSelections.map (fun s => s.partOptionId)
    let conflicts := db.ruleConditions.filter (fun rc =>
      optionIds.contains rc.part_option_id &&
      selectionIds.contains rc.incompatible_with_part_option_id &&
      ruleIsActive db rc.rule_id)
    let incompatibleOptionIds := conflicts.map (fun c => c.part_option_id)
    options.filter (fun option => !(incompatibleOptionIds.contains option.id))

/-- The `inventory` annotation attached to each option: either the columns
of an `Inventory` row or the fallback object `{in_stock: false,
quantity: 0}` (which carries no restock date). -/
structure InvStatus where
  in_stock : Bool
  quantity : Int
  expected_restock_date : Option String
deriving DecidableEq, Repr

/-- An option together with its `inventory` annotation, as returned by
`addInventoryStatus`. -/
structure OptionWithInventory where
  option : PartOption
  inventory : InvStatus
deriving DecidableEq, Repr

/-- The annotation `addInventoryStatus` computes for the option id `oid`:
the inventory rows with `part_option_id IN (optionIds)` are loaded and
poured into a map keyed by `part_option_id` (later rows overwrite earlier
ones, hence `getLast?`); a missing entry falls back to
`{in_stock: false, quantity: 0}`. -/
def invStatusFor (db : DB) (optionIds : List Nat) (oid : Nat) : InvStatus :=
  let loaded := db.inventory.filter (fun r => optionIds.contains r.part_option_id)
  match (loaded.filter (fun r => r.part_option_id == oid)).getLast? with
  | some r => ⟨r.in_stock, r.quantity, r.expected_restock_date⟩
  | none => ⟨false, 0, none⟩

/-- Embedding of `addInventoryStatus(options)`. -/
def addInventoryStatus (db : DB) (options : List PartOption) :
    List OptionWithInventory :=
  if options.length = 0 then
    []
  else
    options.map (fun option =>
      ⟨option, invStatusFor db (options.map (fun o => o.id)) option.id⟩)

/-- Condition rows of the pricing rule `prId` whose `part_option_id` is
among the selection ids — the rows of the rule's `GROUP BY` group after
the `WHERE` clause. -/
def matchedPricingConditions (db : DB) (prId : Nat)
    (selectionIds : List Nat) : List PricingRuleCondition :=
  db.pricingRuleConditions.filter (fun c =>
    c.pricing_rule_id == prId && selectionIds.contains c.part_option_id)

/-- Embedding of `getPriceAdjustments(productId, selections)`.  The SQL
keeps an active rule when its group of matched condition rows is nonempty
and `COUNT(DISTINCT prc.part_option_id) = COUNT(*)` holds on that group;
rules come back in table order (`GROUP BY pr.id` with primary-key ids). -/
def getPriceAdjustments (db : DB) (_productId : Nat)
    (selections : List Selection) : List PricingRule :=
  if selections.length ≤ 1 then
    []
  else
    let selectionIds := selections.map (fun s => s.partOptionId)
    db.pricingRules.filter (fun pr =>
      pr.active &&
      (let m := matchedPricingConditions db pr.id selectionIds
       !(m.length == 0) &&
       (m.map (fun c => c.part_option_id)).dedup.length == m.length))

/-- One step of the adjustment `reduce`/`forEach`: a percentage rule
multiplies the running price by `(1 + price_adjustment / 100)`, a fixed
rule adds `price_adjustment`. -/
def applyAdjustment (price : ℚ) (adjustment : PricingRule) : ℚ :=
  if adjustment.is_percentage then
    price * (1 + adjustment.price_adjustment / 100)
  else
    price + adjustment.price_adjustment

/-- The destructured `[product]` of
`SELECT base_price FROM Products WHERE id = ?`. -/
def lookupProduct (db : DB) (productId : Nat) : Option Product :=
  (db.products.filter (fun p => p.id == productId)).head?

/-- The object `calculateTotalPrice` returns. -/
structure PriceDetails where
  basePrice : ℚ
  optionPriceSum : ℚ
  adjustments : List PricingRule
  totalPrice : ℚ
deriving DecidableEq, Repr

/-- Body of `calculateTotalPrice` once the product row has been
destructured. -/
def calculateTotalPriceFor (db : DB) (product : Product) (productId : Nat)
    (selectedOptions : List Selection) : PriceDetails :=
  let basePrice := product.base_price
  let optionIds := selectedOptions.map (fun s => s.partOptionId)
  let optionPrices := db.partOptions.filter (fun o => optionIds.contains o.id)
  let optionPriceSum := optionPrices.foldl (fun sum o => sum + o.base_price) 0
  let adjustments := getPriceAdjustments db productId selectedOptions
  let totalPrice := adjustments.foldl applyAdjustment (basePrice + optionPriceSum)
  ⟨basePrice, optionPriceSum, adjustments, totalPrice⟩

/-- Embedding of `calculateTotalPrice(productId, selectedOptions)`.
`none` models the crash when the product row is absent (`product` would
be `undefined`). -/
def calculateTotalPrice (db : DB) (productId : Nat)
    (selectedOptions : List Selection) : Option PriceDetails :=
  match lookupProduct db productId with
  | none => none
  | some product => some (calculateTotalPriceFor db product productId selectedOptions)

/-- The required part types of a product:
`SELECT pt.id, pt.name FROM PartTypes pt JOIN ProductPartTypes ppt ON
pt.id = ppt.part_type_id WHERE ppt.product_id = ? AND pt.required = TRUE`
(one row per matching join pair). -/
def requiredPartTypes (db : DB) (productId : Nat) : List PartType :=
  db.partTypes.flatMap (fun pt =>
    (db.productPartTypes.filter (fun ppt =>
      ppt.part_type_id == pt.id && ppt.product_id == productId &&
      pt.required)).map (fun _ => pt))

/-- The `part_type_id` of the first `PartOptions` row with the given id
(`partOptionResults.shift()`), or `none` when no row exists. -/
def partTypeOf (db : DB) (optionId : Nat) : Option Nat :=
  ((db.partOptions.filter (fun o => o.id == optionId)).map
    (fun o => o.part_type_id)).head?

/-- The set of part-type ids covered by the selections: ids for which the
`PartOptions` lookup succeeded. -/
def selectedPartTypeIds (db : DB) (selectedOptions : List Selection) : List Nat :=
  selectedOptions.filterMap (fun s => partTypeOf db s.partOptionId)

/-- The required part types the selections do not cover
(`requiredPartTypes.filter(pt => !selectedPartTypes.has(pt.id))`). -/
def missingRequiredOf (db : DB) (productId : Nat)
    (selectedOptions : List Selection) : List PartType :=
  (requiredPartTypes db productId).filter (fun pt =>
    !((selectedPartTypeIds db selectedOptions).contains pt.id))

/-- The conflict query of `validateConfiguration` for the ordered pair
`(a, b)`.  WHERE clause verbatim, with SQL precedence (`AND` over `OR`):
`(part_option_id = a AND incompatible_with = b) OR (part_option_id = b
AND incompatible_with = a AND ir.active = TRUE)` — the `ir.active` test
only guards the second disjunct. -/
def conflictExists (db : DB) (a b : Nat) : Bool :=
  db.ruleConditions.any (fun rc =>
    db.incompatibilityRules.any (fun ir =>
      ir.id == rc.rule_id &&
      ((rc.part_option_id == a && rc.incompatible_with_part_option_id == b) ||
       (rc.part_option_id == b && rc.incompatible_with_part_option_id == a &&
        ir.active))))

/-- The ordered pairs `(list[i], list[j])` with `i < j`, in the nested
loop order of `validateConfiguration`. -/
def pairsOf : List Nat → List (Nat × Nat)
  | [] => []
  | a :: rest => (rest.map (fun b => (a, b))) ++ pairsOf rest

/-- The incompatible pairs `validateConfiguration` accumulates. -/
def incompatiblePairsOf (db : DB) (selectedOptions : List Selection) :
    List (Nat × Nat) :=
  (pairsOf (selectedOptions.map (fun s => s.partOptionId))).filter
    (fun p => conflictExists db p.1 p.2)

/-- The first `Inventory` row for the option (`inventory[0]`). -/
def invLookup (db : DB) (optionId : Nat) : Option InventoryRecord :=
  (db.inventory.filter (fun r => r.part_option_id == optionId)).head?

/-- The availability test of `validateConfiguration`:
`!inventory.length || !inventory[0].in_stock || inventory[0].quantity <= 0`. -/
def optionUnavailable (db : DB) (optionId : Nat) : Bool :=
  match invLookup db optionId with
  | none => true
  | some r => !r.in_stock || decide (r.quantity ≤ 0)

/-- The `unavailableOptions` list `validateConfiguration` accumulates, in
selection order. -/
def unavailableOf (db : DB) (selectedOptions : List Selection) : List Nat :=
  (selectedOptions.map (fun s => s.partOptionId)).filter
    (fun oid => optionUnavailable db oid)

/-- The four result shapes `validateConfiguration` returns.  The JS
objects are `{valid: false, message: 'Missing required selections: ' +
names.join(', ')}`, `{valid: false, message: 'Selected options contain
incompatible combinations', incompatibilities}`, `{valid: false,
message: 'Some selected options are out of stock', unavailableOptions}`
and `{valid: true, message: 'Configuration is valid'}`; each constructor
carries the data the message/payload is built from. -/
inductive VResult where
  | missingRequired (missingNames : List String)
  | incompatibleCombos (pairs : List (Nat × Nat))
  | outOfStock (unavailableOptions : List Nat)
  | valid
deriving DecidableEq, Repr

/-- Embedding of `validateConfiguration(productId, selectedOptions)`:
three gates, each terminal on first failure. -/
def validateConfiguration (db : DB) (productId : Nat)
    (selectedOptions : List Selection) : VResult :=
  if (missingRequiredOf db productId selectedOptions).length > 0 then
    .missingRequired ((missingRequiredOf db productId selectedOptions).map
      (fun pt => pt.name))
  else if (incompatiblePairsOf db selectedOptions).length > 0 then
    .incompatibleCombos (incompatiblePairsOf db selectedOptions)
  else if (unavailableOf db selectedOptions).length > 0 then
    .outOfStock (unavailableOf db selectedOptions)
  else
    .valid

/-- An option as returned by `getAvailableOptions`: the inventory
annotation plus `basePrice`, `finalPrice` and `priceAdjustments`. -/
structure PricedOption where
  option : PartOption
  inventory : InvStatus
  basePrice : ℚ
  finalPrice : ℚ
  priceAdjustments : List PricingRule
deriving DecidableEq, Repr

/-- Embedding of `calculateOptionPrices(options, productId,
currentSelections)`: each option is priced against the current selections
extended with the option itself as a hypothetical addition. -/
def calculateOptionPrices (db : DB) (options : List OptionWithInventory)
    (productId : Nat) (currentSelections : List Selection) : List PricedOption :=
  options.map (fun ow =>
    let basePrice := ow.option.base_price
    let adjustments := getPriceAdjustments db productId
      (currentSelections ++ [⟨ow.option.id⟩])
    let finalPrice := adjustments.foldl applyAdjustment basePrice
    ⟨ow.option, ow.inventory, basePrice, finalPrice, adjustments⟩)

/-- Step 1 of `getAvailableOptions`:
`SELECT * FROM PartOptions WHERE part_type_id = ? AND active = TRUE`. -/
def optionsForPartType (db : DB) (partTypeId : Nat) : List PartOption :=
  db.partOptions.filter (fun o => o.part_type_id == partTypeId && o.active)

/-- Embedding of `getAvailableOptions(productId, partTypeId,
currentSelections)`. -/
def getAvailableOptions (db : DB) (productId partTypeId : Nat)
    (currentSelections : List Selection) : List PricedOption :=
  let options := optionsForPartType db partTypeId
  let compatibleOptions := filterIncompatibleOptions db options currentSelections
  let optionsWithInventory := addInventoryStatus db compatibleOptions
  calculateOptionPrices db optionsWithInventory productId currentSelections

/-! ### Helper lemmas -/

/-- Mapping the `option` projection over annotated options recovers the
original list. -/
theorem map_mk_option (g : PartOption → InvStatus) (l : List PartOption) :
    (l.map (fun o => (⟨o, g o⟩ : OptionWithInventory))).map (fun x => x.option)
      = l := by
  induction l with
  | nil => rfl
  | cons a t ih => simp [ih]

/-- Options survive `addInventoryStatus` unchanged: the annotation step
only attaches inventory data. -/
theorem addInventoryStatus_map_option (db : DB) (opts : List PartOption) :
    (addInventoryStatus db opts).map (fun x => x.option) = opts := by
  unfold addInventoryStatus
  by_cases h : opts.length = 0
  · simp [h, List.length_eq_zero.mp h]
  · rw [if_neg h]
    exact map_mk_option _ opts

/-- Options survive `calculateOptionPrices` unchanged. -/
theorem calculateOptionPrices_map_option (db : DB)
    (opts : List OptionWithInventory) (pid : Nat) (sels : List Selection) :
    (calculateOptionPrices db opts pid sels).map (fun x => x.option)
      = opts.map (fun x => x.option) := by
  simp [calculateOptionPrices, List.map_map, Function.comp]

/-! ### C8 — empty-selection identity -/

/-- C8: with an empty selection list, `filterIncompatibleOptions` returns
the candidate list unchanged, for every store `db` — in particular the
result does not depend on any rule table, reflecting that the early
return issues no query. -/
theorem c8_empty_selection_identity (db : DB) (options : List PartOption) :
    filterIncompatibleOptions db options [] = options := by
  simp [filterIncompatibleOptions]

/-! ### C7 — missing inventory record defaults -/

/-- C7: every option that reaches the output of `addInventoryStatus`
without any `Inventory` row for its id carries exactly the fallback
annotation `{in_stock: false, quantity: 0}` (with no restock date);
absence of a record is never reported as in-stock or unlimited
availability. -/
theorem c7_missing_inventory_defaults (db : DB) (opts : List PartOption)
    (x : OptionWithInventory) (hx : x ∈ addInventoryStatus db opts)
    (hno : ∀ r ∈ db.inventory, r.part_option_id ≠ x.option.id) :
    x.inventory = ⟨false, 0, none⟩ := by
  unfold addInventoryStatus at hx
  by_cases h : opts.length = 0
  · simp [h] at hx
  · simp only [if_neg h, List.mem_map] at hx
    obtain ⟨o, _, rfl⟩ := hx
    show invStatusFor db (opts.map (fun o => o.id)) o.id = ⟨false, 0, none⟩
    have hempty :
        ((db.inventory.filter (fun r =>
            (opts.map (fun o => o.id)).contains r.part_option_id)).filter
          (fun r => r.part_option_id == o.id)) = [] := by
      rw [List.filter_eq_nil_iff]
      intro r hr hreq
      have hrmem : r ∈ db.inventory := (List.mem_filter.mp hr).1
      exact hno r hrmem (by simpa using hreq)
    simp only [invStatusFor]
    rw [hempty]
    rfl

/-- Store used for the C7 witness: one inventory row, for option 9 only. -/
def wdb7 : DB := ⟨[], [], [], [], [⟨9, 3, true, none⟩], [], [], [], []⟩

/-- Closed instance of C7 at a concrete store: option 5 has no inventory
row, so its annotation is the out-of-stock default. -/
theorem c7_missing_inventory_defaults_witness :
    ∃ x ∈ addInventoryStatus wdb7 [⟨5, 1, 0, true⟩],
      x.inventory = (⟨false, 0, none⟩ : InvStatus) := by
  refine ⟨⟨⟨5, 1, 0, true⟩, ⟨false, 0, none⟩⟩, by decide, ?_⟩
  exact c7_missing_inventory_defaults wdb7 [⟨5, 1, 0, true⟩] _ (by decide) (by decide)

/-! ### C9 — result membership is independent of the inventory store -/

/-- C9: the option-id list `getAvailableOptions` returns is exactly the
id list of the active options of the part type that survive the
incompatibility filter, and it is invariant under arbitrary replacement
of the `Inventory` table: inventory state only changes annotations, never
membership. -/
theorem c9_ids_independent_of_inventory (db : DB)
    (inv2 : List InventoryRecord) (pid ptid : Nat) (sels : List Selection) :
    (getAvailableOptions { db with inventory := inv2 } pid ptid sels).map
        (fun x => x.option.id)
      = (filterIncompatibleOptions db (optionsForPartType db ptid) sels).map
        (fun o => o.id) ∧
    (getAvailableOptions { db with inventory := inv2 } pid ptid sels).map
        (fun x => x.option.id)
      = (getAvailableOptions db pid ptid sels).map (fun x => x.option.id) := by
  have key : ∀ d : DB,
      (getAvailableOptions d pid ptid sels).map (fun x => x.option.id)
        = (filterIncompatibleOptions d (optionsForPartType d ptid) sels).map
          (fun o => o.id) := by
    intro d
    have h1 : (getAvailableOptions d pid ptid sels).map (fun x => x.option.id)
        = ((getAvailableOptions d pid ptid sels).map (fun x => x.option)).map
          (fun o => o.id) := by
      simp [List.map_map, Function.comp]
    rw [h1]
    unfold getAvailableOptions
    rw [calculateOptionPrices_map_option, addInventoryStatus_map_option]
  have hsame :
      filterIncompatibleOptions { db with inventory := inv2 }
          (optionsForPartType { db with inventory := inv2 } ptid) sels
        = filterIncompatibleOptions db (optionsForPartType db ptid) sels := rfl
  refine ⟨?_, ?_⟩
  · rw [key { db with inventory := inv2 }, hsame]
  · rw [key { db with inventory := inv2 }, hsame, key db]

/-! ### C1 — direction of the incompatibility filter -/

/-- Store with one empty-tabled baseline, shared by the concrete stores
below. -/
def emptyDB : DB := ⟨[], [], [], [], [], [], [], [], []⟩

/-- Store for C1: a single ACTIVE incompatibility edge `(1, 2)` — rule
condition row with `part_option_id = 1`,
`incompatible_with_part_option_id = 2`. -/
def cdb1 : DB := { emptyDB with
  incompatibilityRules := [⟨1, true⟩],
  ruleConditions := [⟨1, 1, 2⟩] }

/-- C1 fails on the code: for the active edge `(A, B) = (1, 2)`,
resolving candidates with `A = 1` selected does NOT exclude `B = 2` —
option 2 survives the filter — while the reverse resolution with `B = 2`
selected does exclude `A = 1`.  The filter is not bidirectional. -/
theorem c1_filter_not_symmetric_counterexample :
    cdb1.incompatibilityRules = [⟨1, true⟩] ∧
    cdb1.ruleConditions = [⟨1, 1, 2⟩] ∧
    (filterIncompatibleOptions cdb1 [⟨2, 1, 0, true⟩] [⟨1⟩]).map
      (fun o => o.id) = [2] ∧
    (filterIncompatibleOptions cdb1 [⟨1, 1, 0, true⟩] [⟨2⟩]).map
      (fun o => o.id) = [] := by
  refine ⟨rfl, rfl, by decide, by decide⟩

/-- C1 amended: the filter is one-directional.  A candidate `o` is
excluded exactly when some rule-condition row of an active rule has `o`
on its `part_option_id` side and a selected id on its
`incompatible_with_part_option_id` side; an edge whose `part_option_id`
side is the selected option does not exclude the candidate on its other
side. -/
theorem c1_filterIncompatibleOptions_one_directional (db : DB)
    (options : List PartOption) (sels : List Selection) (o : PartOption) :
    o ∈ filterIncompatibleOptions db options sels ↔
      o ∈ options ∧
      ¬ ∃ rc ∈ db.ruleConditions, rc.part_option_id = o.id ∧
          (∃ s ∈ sels, s.partOptionId = rc.incompatible_with_part_option_id) ∧
          ruleIsActive db rc.rule_id = true := by
  unfold filterIncompatibleOptions
  by_cases h : sels.length = 0 ∨ options.length = 0
  · rw [if_pos h]
    rcases h with h | h
    · have hs : sels = [] := List.length_eq_zero.mp h
      subst hs
      simp
    · have ho : options = [] := List.length_eq_zero.mp h
      subst ho
      simp
  · rw [if_neg h]
    rw [List.mem_filter]
    constructor
    · rintro ⟨hmem, hpass⟩
      refine ⟨hmem, ?_⟩
      rintro ⟨rc, hrc, hrcid, ⟨s, hs, hsid⟩, hact⟩
      simp only [Bool.not_eq_true'] at hpass
      rw [List.contains_eq_any_beq] at hpass
      simp only [List.any_eq_false] at hpass
      refine hpass rc.part_option_id ?_ (by simp [hrcid])
      rw [List.mem_map]
      refine ⟨rc, ?_, rfl⟩
      rw [List.mem_filter]
      refine ⟨hrc, ?_⟩
      simp only [Bool.and_eq_true]
      refine ⟨⟨?_, ?_⟩, hact⟩
      · simp only [List.contains_eq_any_beq, List.any_eq_true]
        exact ⟨o.id, List.mem_map_of_mem _ hmem, by simp [hrcid]⟩
      · simp only [List.contains_eq_any_beq, List.any_eq_true]
        exact ⟨s.partOptionId, List.mem_map_of_mem _ hs, by simp [hsid]⟩
    · rintro ⟨hmem, hnex⟩
      refine ⟨hmem, ?_⟩
      simp only [Bool.not_eq_true']
      rw [List.contains_eq_any_beq]
      simp only [List.any_eq_false]
      intro pid hpid
      rw [List.mem_map] at hpid
      obtain ⟨rc, hrcmem, rfl⟩ := hpid
      rw [List.mem_filter] at hrcmem
      obtain ⟨hrc, hcond⟩ := hrcmem
      simp only [Bool.and_eq_true] at hcond
      obtain ⟨⟨_, hsel⟩, hact⟩ := hcond
      simp only [beq_iff_eq]
      intro hid
      apply hnex
      refine ⟨rc, hrc, hid.symm ▸ rfl, ?_, hact⟩
      · simp only [List.contains_eq_any_beq, List.any_eq_true] at hsel
        obtain ⟨sid, hsidmem, hbeq⟩ := hsel
        rw [List.mem_map] at hsidmem
        obtain ⟨s, hsmem, rfl⟩ := hsidmem
        exact ⟨s, hsmem, by
          have := (by simpa using hbeq :
            rc.incompatible_with_part_option_id = s.partOptionId)
          exact this.symm⟩

/-! ### C2 — pricing-rule condition matching -/

/-- Store for C2: one active pricing rule (id 1, +10 fixed) whose
condition set is `{1, 2}`. -/
def cdb2 : DB := { emptyDB with
  pricingRules := [⟨1, 10, false, true⟩],
  pricingRuleConditions := [⟨1, 1⟩, ⟨1, 2⟩] }

/-- C2 fails on the code: the rule's condition set is `{1, 2}` but option
2 is not among the selections `[1, 3]`, yet `getPriceAdjustments` returns
the rule — the `HAVING COUNT(DISTINCT prc.part_option_id) = COUNT(*)`
clause compares the matched rows with themselves, so any nonempty overlap
with the condition set fires the rule.  The singleton guard
(`selections.length <= 1` gives `[]`) does hold. -/
theorem c2_fires_without_full_condition_set :
    getPriceAdjustments cdb2 1 [⟨1⟩, ⟨3⟩] = [⟨1, 10, false, true⟩] ∧
    (⟨1, 2⟩ : PricingRuleCondition) ∈ cdb2.pricingRuleConditions ∧
    (2 : Nat) ∉ ([⟨1⟩, ⟨3⟩] : List Selection).map (fun s => s.partOptionId) ∧
    getPriceAdjustments cdb2 1 [⟨1⟩] = [] := by
  refine ⟨by decide, by decide, by decide, by decide⟩

/-! ### C4 — inactive rules in the validator's compatibility gate -/

/-- Store for C4: a single INACTIVE rule (id 7) with the edge `(1, 2)`,
no required part types, so the completeness gate passes vacuously. -/
def cdb4 : DB := { emptyDB with
  incompatibilityRules := [⟨7, false⟩],
  ruleConditions := [⟨7, 1, 2⟩] }

/-- C4 fails on the code: every rule in the store is inactive, yet the
pair `(1, 2)` is flagged as an incompatible combination — the SQL
precedence slip `X OR Y AND active` applies the `ir.active = TRUE` test
only to the reversed-direction disjunct, so an inactive forward edge
still triggers the conflict. -/
theorem c4_flags_pair_of_inactive_rule :
    (∀ ir ∈ cdb4.incompatibilityRules, ir.active = false) ∧
    validateConfiguration cdb4 1 [⟨1⟩, ⟨2⟩] = .incompatibleCombos [(1, 2)] := by
  refine ⟨by decide, by decide⟩

/-! ### C5 — completeness gate -/

/-- Store for C5: one required part type (1, "Frame") with two active
options 1 and 2, both in stock. -/
def cdb5 : DB := { emptyDB with
  partTypes := [⟨1, "Frame", true⟩],
  productPartTypes := [⟨1, 1⟩],
  partOptions := [⟨1, 1, 0, true⟩, ⟨2, 1, 0, true⟩],
  inventory := [⟨1, 5, true, none⟩, ⟨2, 5, true, none⟩] }

/-- C5 fails on the code as stated: selecting BOTH options of the single
required part type still validates — the completeness gate only checks
coverage through a set of part-type ids, so "exactly one selected option
per required type" is not enforced, only "at least one". -/
theorem c5_two_options_of_required_type_counterexample :
    (cdb5.partOptions.map (fun o => o.part_type_id)) = [1, 1] ∧
    cdb5.partTypes = [⟨1, "Frame", true⟩] ∧
    validateConfiguration cdb5 1 [⟨1⟩, ⟨2⟩] = .valid := by
  refine ⟨by decide, rfl, by decide⟩

/-- Unfolding lemma: a nonempty missing-required list short-circuits the
validator. -/
theorem validateConfiguration_missing (db : DB) (pid : Nat)
    (sels : List Selection) (h : missingRequiredOf db pid sels ≠ []) :
    validateConfiguration db pid sels =
      .missingRequired ((missingRequiredOf db pid sels).map (fun pt => pt.name)) := by
  unfold validateConfiguration
  rw [if_pos (List.length_pos.mpr h)]

/-- Unfolding lemma: with completeness satisfied, a nonempty conflict
list short-circuits the validator. -/
theorem validateConfiguration_incompat (db : DB) (pid : Nat)
    (sels : List Selection) (h1 : missingRequiredOf db pid sels = [])
    (h2 : incompatiblePairsOf db sels ≠ []) :
    validateConfiguration db pid sels =
      .incompatibleCombos (incompatiblePairsOf db sels) := by
  unfold validateConfiguration
  rw [if_neg (by simp [h1]), if_pos (List.length_pos.mpr h2)]

/-- Unfolding lemma: with the first two gates passed, a nonempty
unavailable list yields the out-of-stock failure. -/
theorem validateConfiguration_outOfStock (db : DB) (pid : Nat)
    (sels : List Selection) (h1 : missingRequiredOf db pid sels = [])
    (h2 : incompatiblePairsOf db sels = [])
    (h3 : unavailableOf db sels ≠ []) :
    validateConfiguration db pid sels = .outOfStock (unavailableOf db sels) := by
  unfold validateConfiguration
  rw [if_neg (by simp [h1]), if_neg (by simp [h2]), if_pos (List.length_pos.mpr h3)]

/-- The validator answers `valid` exactly when all three gate lists are
empty. -/
theorem validateConfiguration_eq_valid_iff (db : DB) (pid : Nat)
    (sels : List Selection) :
    validateConfiguration db pid sels = .valid ↔
      missingRequiredOf db pid sels = [] ∧
      incompatiblePairsOf db sels = [] ∧
      unavailableOf db sels = [] := by
  unfold validateConfiguration
  split_ifs with h1 h2 h3
  · simp [List.ne_nil_of_length_pos h1]
  · simp [List.ne_nil_of_length_pos h2]
  · simp [List.ne_nil_of_length_pos h3]
  · have e1 := List.length_eq_zero.mp (Nat.eq_zero_of_not_pos h1)
    have e2 := List.length_eq_zero.mp (Nat.eq_zero_of_not_pos h2)
    have e3 := List.length_eq_zero.mp (Nat.eq_zero_of_not_pos h3)
    simp [e1, e2, e3]

/-! ### C5 — completeness gate, amended -/

/-- Spec-side coverage: some selection's `PartOptions` lookup lands on
the part type. -/
def coversRequired (db : DB) (sels : List Selection) (ptId : Nat) : Prop :=
  ∃ s ∈ sels, partTypeOf db s.partOptionId = some ptId

/-- The code's coverage set agrees with spec-side coverage. -/
theorem selectedPartTypeIds_contains_iff (db : DB) (sels : List Selection)
    (ptId : Nat) :
    ((selectedPartTypeIds db sels).contains ptId = true) ↔
      coversRequired db sels ptId := by
  simp [selectedPartTypeIds, coversRequired, List.contains, List.mem_filterMap]

/-- Membership in the code's missing-required list, characterised
spec-side. -/
theorem missingRequiredOf_mem_iff (db : DB) (pid : Nat)
    (sels : List Selection) (pt : PartType) :
    pt ∈ missingRequiredOf db pid sels ↔
      pt ∈ requiredPartTypes db pid ∧ ¬ coversRequired db sels pt.id := by
  unfold missingRequiredOf
  rw [List.mem_filter]
  constructor
  · rintro ⟨hreq, hpass⟩
    refine ⟨hreq, ?_⟩
    rw [← selectedPartTypeIds_contains_iff]
    simpa using hpass
  · rintro ⟨hreq, hcov⟩
    refine ⟨hreq, ?_⟩
    rw [← selectedPartTypeIds_contains_iff] at hcov
    simpa using hcov

/-- C5 amended: whenever some required part type of the product has no
selected option, the validator fails, its message listing exactly the
names of the required part types with no covering selection; and whenever
it answers `valid`, every required part type has AT LEAST ONE selected
option of that type ("exactly one" fails — see the counterexample). -/
theorem c5_missing_required_and_coverage (db : DB) (pid : Nat)
    (sels : List Selection) :
    ((∃ pt ∈ requiredPartTypes db pid, ¬ coversRequired db sels pt.id) →
      validateConfiguration db pid sels =
        .missingRequired ((missingRequiredOf db pid sels).map (fun pt => pt.name))) ∧
    (∀ pt, pt ∈ missingRequiredOf db pid sels ↔
      pt ∈ requiredPartTypes db pid ∧ ¬ coversRequired db sels pt.id) ∧
    (validateConfiguration db pid sels = .valid →
      ∀ pt ∈ requiredPartTypes db pid, coversRequired db sels pt.id) := by
  refine ⟨?_, fun pt => missingRequiredOf_mem_iff db pid sels pt, ?_⟩
  · rintro ⟨pt, hpt, hcov⟩
    exact validateConfiguration_missing db pid sels
      (List.ne_nil_of_mem ((missingRequiredOf_mem_iff db pid sels pt).mpr ⟨hpt, hcov⟩))
  · intro hv pt hpt
    by_contra hcov
    have hne : missingRequiredOf db pid sels ≠ [] :=
      List.ne_nil_of_mem ((missingRequiredOf_mem_iff db pid sels pt).mpr ⟨hpt, hcov⟩)
    have := validateConfiguration_missing db pid sels hne
    rw [this] at hv
    exact VResult.noConfusion hv

/-- Store for the C5 witness: required part type 1 with no selection. -/
def wdb5 : DB := { emptyDB with
  partTypes := [⟨1, "Frame", true⟩],
  productPartTypes := [⟨1, 1⟩] }

/-- Closed instance of the amended C5: with the required "Frame" type
uncovered, the validator reports it missing by name. -/
theorem c5_missing_required_and_coverage_witness :
    (∃ pt ∈ requiredPartTypes wdb5 1, ¬ coversRequired wdb5 [] pt.id) ∧
    validateConfiguration wdb5 1 [] = .missingRequired ["Frame"] := by
  refine ⟨⟨⟨1, "Frame", true⟩, by decide, ?_⟩, ?_⟩
  · rintro ⟨s, hs, -⟩
    exact absurd hs (List.not_mem_nil s)
  · have h := (c5_missing_required_and_coverage wdb5 1 []).1
      ⟨⟨1, "Frame", true⟩, by decide, by rintro ⟨s, hs, -⟩; exact absurd hs (List.not_mem_nil s)⟩
    rw [h]
    decide

/-! ### C6 — availability gate -/

/-- Spec-side availability: the option's (first) inventory row exists,
has `in_stock` set and positive quantity. -/
def availableInStore (db : DB) (oid : Nat) : Prop :=
  ∃ r, invLookup db oid = some r ∧ r.in_stock = true ∧ 0 < r.quantity

/-- The code's availability test agrees with spec-side availability. -/
theorem optionUnavailable_eq_false_iff (db : DB) (oid : Nat) :
    optionUnavailable db oid = false ↔ availableInStore db oid := by
  unfold optionUnavailable availableInStore
  cases h : invLookup db oid with
  | none => simp
  | some r => simp [not_le]

/-- The code's availability test, negated. -/
theorem optionUnavailable_eq_true_iff (db : DB) (oid : Nat) :
    optionUnavailable db oid = true ↔ ¬ availableInStore db oid := by
  rw [← optionUnavailable_eq_false_iff]
  cases optionUnavailable db oid <;> simp

/-- Membership in the `unavailableOptions` list, characterised
spec-side. -/
theorem unavailableOf_mem_iff (db : DB) (sels : List Selection) (oid : Nat) :
    oid ∈ unavailableOf db sels ↔
      oid ∈ sels.map (fun s => s.partOptionId) ∧ ¬ availableInStore db oid := by
  unfold unavailableOf
  rw [List.mem_filter, optionUnavailable_eq_true_iff]

/-- C6: once the completeness and compatibility gates pass, the validator
answers `valid` exactly when every selected option's inventory record
exists with `in_stock = true` and positive quantity; any selected option
whose record is missing, not in stock or of non-positive quantity forces
the out-of-stock failure, whose list holds exactly the unavailable
selected option ids. -/
theorem c6_availability_gate (db : DB) (pid : Nat) (sels : List Selection)
    (hc : missingRequiredOf db pid sels = [])
    (hi : incompatiblePairsOf db sels = []) :
    (validateConfiguration db pid sels = .valid ↔
      ∀ s ∈ sels, availableInStore db s.partOptionId) ∧
    ((∃ s ∈ sels, ¬ availableInStore db s.partOptionId) →
      validateConfiguration db pid sels = .outOfStock (unavailableOf db sels)) ∧
    (∀ oid, oid ∈ unavailableOf db sels ↔
      oid ∈ sels.map (fun s => s.partOptionId) ∧ ¬ availableInStore db oid) := by
  refine ⟨?_, ?_, fun oid => unavailableOf_mem_iff db sels oid⟩
  · rw [validateConfiguration_eq_valid_iff]
    constructor
    · rintro ⟨-, -, hu⟩ s hs
      by_contra hna
      have : s.partOptionId ∈ unavailableOf db sels :=
        (unavailableOf_mem_iff db sels s.partOptionId).mpr
          ⟨List.mem_map_of_mem _ hs, hna⟩
      rw [hu] at this
      exact absurd this (List.not_mem_nil _)
    · intro hall
      refine ⟨hc, hi, ?_⟩
      unfold unavailableOf
      rw [List.filter_eq_nil_iff]
      intro oid hoid
      rw [List.mem_map] at hoid
      obtain ⟨s, hs, rfl⟩ := hoid
      rw [Bool.not_eq_true, optionUnavailable_eq_false_iff]
      exact hall s hs
  · rintro ⟨s, hs, hna⟩
    have hmem : s.partOptionId ∈ unavailableOf db sels :=
      (unavailableOf_mem_iff db sels s.partOptionId).mpr
        ⟨List.mem_map_of_mem _ hs, hna⟩
    exact validateConfiguration_outOfStock db pid sels hc hi
      (List.ne_nil_of_mem hmem)

/-- Store for the C6 witness: option 1's inventory row has quantity 0. -/
def wdb6 : DB := { emptyDB with
  partOptions := [⟨1, 1, 0, true⟩],
  inventory := [⟨1, 0, true, none⟩] }

/-- Closed instance of C6: with completeness and compatibility passing
and option 1 at quantity 0, validation is the out-of-stock failure
listing option 1. -/
theorem c6_availability_gate_witness :
    missingRequiredOf wdb6 1 [⟨1⟩] = [] ∧
    incompatiblePairsOf wdb6 [⟨1⟩] = [] ∧
    validateConfiguration wdb6 1 [⟨1⟩] = .outOfStock [1] := by
  have hna : ¬ availableInStore wdb6 1 := by
    rintro ⟨r, hr, -, hq⟩
    have : r = ⟨1, 0, true, none⟩ := by
      have hl : invLookup wdb6 1 = some ⟨1, 0, true, none⟩ := rfl
      rw [hl] at hr
      exact (Option.some.inj hr).symm
    rw [this] at hq
    exact absurd hq (by decide)
  have h := (c6_availability_gate wdb6 1 [⟨1⟩] (by decide) (by decide)).2.1
    ⟨⟨1⟩, by decide, hna⟩
  refine ⟨by decide, by decide, ?_⟩
  rw [h]
  decide

/-! ### C10 — unknown option ids never validate -/

/-- C10: a selection containing an option id with no `PartOptions` row
(and, by the schema's foreign key, no `Inventory` row) contributes
nothing to completeness coverage and never validates: when the first two
gates pass, the unknown id is reported in the out-of-stock list rather
than raising a not-found error. -/
theorem c10_unknown_option_never_valid (db : DB) (pid : Nat)
    (sels : List Selection) (u : Selection) (hu : u ∈ sels)
    (hopt : ∀ o ∈ db.partOptions, o.id ≠ u.partOptionId)
    (hinv : ∀ r ∈ db.inventory, r.part_option_id ≠ u.partOptionId) :
    partTypeOf db u.partOptionId = none ∧
    validateConfiguration db pid sels ≠ .valid ∧
    (missingRequiredOf db pid sels = [] → incompatiblePairsOf db sels = [] →
      validateConfiguration db pid sels = .outOfStock (unavailableOf db sels) ∧
      u.partOptionId ∈ unavailableOf db sels) := by
  have hfo : db.partOptions.filter (fun o => o.id == u.partOptionId) = [] := by
    rw [List.filter_eq_nil_iff]
    intro o ho hbeq
    exact hopt o ho (by simpa using hbeq)
  have hpt : partTypeOf db u.partOptionId = none := by
    unfold partTypeOf
    rw [hfo]
    rfl
  have hfi : db.inventory.filter (fun r => r.part_option_id == u.partOptionId) = [] := by
    rw [List.filter_eq_nil_iff]
    intro r hr hbeq
    exact hinv r hr (by simpa using hbeq)
  have hunav : optionUnavailable db u.partOptionId = true := by
    unfold optionUnavailable invLookup
    rw [hfi]
    rfl
  have humem : u.partOptionId ∈ unavailableOf db sels := by
    unfold unavailableOf
    rw [List.mem_filter]
    exact ⟨List.mem_map_of_mem _ hu, hunav⟩
  refine ⟨hpt, ?_, ?_⟩
  · intro hv
    obtain ⟨-, -, hul⟩ := (validateConfiguration_eq_valid_iff db pid sels).mp hv
    rw [hul] at humem
    exact absurd humem (List.not_mem_nil _)
  · intro h1 h2
    exact ⟨validateConfiguration_outOfStock db pid sels h1 h2
      (List.ne_nil_of_mem humem), humem⟩

/-- Store for the C10 witness: product 1 requires part type 1, option 1
covers it and is in stock; id 99 has no `PartOptions` or `Inventory`
row. -/
def wdb10 : DB := { emptyDB with
  partTypes := [⟨1, "Frame", true⟩],
  productPartTypes := [⟨1, 1⟩],
  partOptions := [⟨1, 1, 0, true⟩],
  inventory := [⟨1, 5, true, none⟩] }

/-- Closed instance of C10: selecting the unknown id 99 alongside a
complete, compatible, in-stock selection yields the out-of-stock failure
listing 99, and never `valid`. -/
theorem c10_unknown_option_never_valid_witness :
    (⟨99⟩ : Selection) ∈ ([⟨1⟩, ⟨99⟩] : List Selection) ∧
    (∀ o ∈ wdb10.partOptions, o.id ≠ 99) ∧
    (∀ r ∈ wdb10.inventory, r.part_option_id ≠ 99) ∧
    partTypeOf wdb10 99 = none ∧
    validateConfiguration wdb10 1 [⟨1⟩, ⟨99⟩] ≠ .valid ∧
    validateConfiguration wdb10 1 [⟨1⟩, ⟨99⟩] = .outOfStock [99] := by
  have h := c10_unknown_option_never_valid wdb10 1 [⟨1⟩, ⟨99⟩] ⟨99⟩
    (by decide) (by decide) (by decide)
  refine ⟨by decide, by decide, by decide, h.1, h.2.1, ?_⟩
  rw [(h.2.2 (by decide) (by decide)).1]
  decide

/-! ### C3 — total price computation -/

/-- Definition following the spec's wording for comparison with the code
(spec §4.3): starting from the running total, each adjustment in order is
applied to the total produced by the previous step — a fixed adjustment
adds its constant, a percentage adjustment multiplies the running total
by `(1 + pct/100)`. -/
def specSequentialTotal (start : ℚ) (adjs : List PricingRule) : ℚ :=
  adjs.foldl (fun running adj =>
    if adj.is_percentage then running * (1 + adj.price_adjustment / 100)
    else running + adj.price_adjustment) start

/-- The base price of THE option row with the given id (0 if absent; the
hypotheses of the theorem below guarantee a unique row). -/
def optionBasePriceOf (opts : List PartOption) (oid : Nat) : ℚ :=
  match (opts.filter (fun o => o.id == oid)).head? with
  | some o => o.base_price
  | none => 0

/-- Component lemma: `basePrice` field of the computed price details. -/
theorem calculateTotalPriceFor_basePrice (db : DB) (p : Product) (pid : Nat)
    (sels : List Selection) :
    (calculateTotalPriceFor db p pid sels).basePrice = p.base_price := rfl

/-- Component lemma: `adjustments` field of the computed price details. -/
theorem calculateTotalPriceFor_adjustments (db : DB) (p : Product) (pid : Nat)
    (sels : List Selection) :
    (calculateTotalPriceFor db p pid sels).adjustments
      = getPriceAdjustments db pid sels := rfl

/-- Component lemma: `optionPriceSum` field of the computed price
details. -/
theorem calculateTotalPriceFor_optionPriceSum (db : DB) (p : Product)
    (pid : Nat) (sels : List Selection) :
    (calculateTotalPriceFor db p pid sels).optionPriceSum
      = (db.partOptions.filter (fun o =>
          (sels.map (fun s => s.partOptionId)).contains o.id)).foldl
        (fun sum o => sum + o.base_price) 0 := rfl

/-- Component lemma: `totalPrice` field of the computed price details. -/
theorem calculateTotalPriceFor_totalPrice (db : DB) (p : Product) (pid : Nat)
    (sels : List Selection) :
    (calculateTotalPriceFor db p pid sels).totalPrice
      = (getPriceAdjustments db pid sels).foldl applyAdjustment
        (p.base_price + (calculateTotalPriceFor db p pid sels).optionPriceSum) := rfl

/-- Folding price addition equals adding the mapped sum. -/
theorem foldl_add_base_price (l : List PartOption) (init : ℚ) :
    l.foldl (fun sum o => sum + o.base_price) init
      = init + (l.map (fun o => o.base_price)).sum := by
  induction l generalizing init with
  | nil => simp
  | cons a t ih => simp [List.foldl_cons, ih, List.sum_cons]; ring

/-- Splitting a filtered sum over a disjunction of pointwise-disjoint
predicates. -/
theorem sum_map_filter_or {α : Type} (f : α → ℚ) (p q : α → Bool)
    (l : List α) (hdisj : ∀ x ∈ l, p x = true → q x = false) :
    ((l.filter (fun x => p x || q x)).map f).sum
      = ((l.filter p).map f).sum + ((l.filter q).map f).sum := by
  induction l with
  | nil => simp
  | cons a t ih =>
    have ht : ∀ x ∈ t, p x = true → q x = false :=
      fun x hx => hdisj x (List.mem_cons_of_mem _ hx)
    cases hp : p a with
    | true =>
      have hq : q a = false := hdisj a (List.mem_cons_self a t) hp
      simp only [List.filter_cons, hp, hq, Bool.true_or, if_true, if_false,
        Bool.false_eq_true, List.map_cons, List.sum_cons, ih ht]
      ring
    | false =>
      cases hq : q a with
      | true =>
        simp only [List.filter_cons, hp, hq, Bool.false_or, if_true, if_false,
          Bool.false_eq_true, List.map_cons, List.sum_cons, ih ht]
        ring
      | false =>
        simp only [List.filter_cons, hp, hq, Bool.false_or, if_false,
          Bool.false_eq_true, ih ht]

/-- Expanding membership in a cons of ids. -/
theorem contains_cons_eq (x i : Nat) (rest : List Nat) :
    (i :: rest).contains x = (x == i || rest.contains x) := by
  cases h : x == i <;> simp [List.contains, List.elem, h]

/-- In a list of options with pairwise-distinct ids, filtering on a
present id yields exactly its row. -/
theorem filter_id_eq_singleton (i : Nat) :
    ∀ opts : List PartOption, (opts.map (fun o => o.id)).Nodup →
    ∀ o : PartOption, o ∈ opts → o.id = i →
    opts.filter (fun x => x.id == i) = [o] := by
  intro opts
  induction opts with
  | nil => intro _ o ho _; exact absurd ho (List.not_mem_nil o)
  | cons a t ih =>
    intro hnd o ho hoi
    rw [List.map_cons, List.nodup_cons] at hnd
    obtain ⟨hna, hnt⟩ := hnd
    rcases List.mem_cons.mp ho with rfl | hot
    · have ht : t.filter (fun x => x.id == i) = [] := by
        rw [List.filter_eq_nil_iff]
        intro x hx hbeq
        have hxi : x.id = i := by simpa using hbeq
        refine hna ?_
        rw [List.mem_map]
        exact ⟨x, hx, by rw [hxi, hoi]⟩
      rw [List.filter_cons, if_pos (by simp [hoi]), ht]
    · have hai : (a.id == i) = false := by
        rw [beq_eq_false_iff_ne]
        intro hai
        refine hna ?_
        rw [List.mem_map]
        exact ⟨o, hot, by rw [hoi, hai]⟩
      rw [List.filter_cons, if_neg (by simp [hai])]
      exact ih hnt o hot hoi

/-- Sum of filtered option prices, re-expressed as a sum over the ids
doing the filtering: the heart of the `optionPriceSum` refinement. -/
theorem sum_filter_contains :
    ∀ (ids : List Nat) (opts : List PartOption), ids.Nodup →
    (opts.map (fun o => o.id)).Nodup →
    (∀ i ∈ ids, ∃ o ∈ opts, o.id = i) →
    ((opts.filter (fun o => ids.contains o.id)).map (fun o => o.base_price)).sum
      = (ids.map (fun i => optionBasePriceOf opts i)).sum := by
  intro ids
  induction ids with
  | nil =>
    intro opts _ _ _
    have h : opts.filter (fun o => ([] : List Nat).contains o.id) = [] := by
      rw [List.filter_eq_nil_iff]
      intro a _ hc
      simp [List.contains] at hc
    simp [h]
  | cons i rest ih =>
    intro opts hnd hopts hex
    rw [List.nodup_cons] at hnd
    obtain ⟨hir, hrest⟩ := hnd
    rw [List.filter_congr (fun o _ => contains_cons_eq o.id i rest)]
    have hdisj : ∀ o ∈ opts, (o.id == i) = true → rest.contains o.id = false := by
      intro o _ hbeq
      have : o.id = i := by simpa using hbeq
      rw [this]
      simpa [List.contains] using hir
    rw [sum_map_filter_or _ _ _ _ hdisj]
    obtain ⟨o, ho, hoi⟩ := hex i (List.mem_cons_self i rest)
    rw [filter_id_eq_singleton i opts hopts o ho hoi]
    have hhead : optionBasePriceOf opts i = o.base_price := by
      unfold optionBasePriceOf
      rw [filter_id_eq_singleton i opts hopts o ho hoi]
      rfl
    rw [List.map_cons, List.sum_cons, List.map_nil, List.sum_nil,
      ih opts hrest hopts (fun j hj => hex j (List.mem_cons_of_mem _ hj)),
      List.map_cons, List.sum_cons, hhead]
    ring

/-- C3: for a selection whose ids are distinct and each backed by a
unique `PartOptions` row, `calculateTotalPrice` returns the product's
base price as `basePrice`, the sum of the selected options' base prices
as `optionPriceSum`, the matched adjustments in lookup order, and a
`totalPrice` obtained by the spec's sequential compounding pass starting
from `basePrice + optionPriceSum`. -/
theorem c3_calculateTotalPrice_spec (db : DB) (pid : Nat)
    (sels : List Selection) (product : Product) (pd : PriceDetails)
    (hprod : lookupProduct db pid = some product)
    (heval : calculateTotalPrice db pid sels = some pd)
    (hnd : (sels.map (fun s => s.partOptionId)).Nodup)
    (hnd2 : (db.partOptions.map (fun o => o.id)).Nodup)
    (hex : ∀ s ∈ sels, ∃ o ∈ db.partOptions, o.id = s.partOptionId) :
    pd.basePrice = product.base_price ∧
    pd.optionPriceSum =
      (sels.map (fun s => optionBasePriceOf db.partOptions s.partOptionId)).sum ∧
    pd.adjustments = getPriceAdjustments db pid sels ∧
    pd.totalPrice = specSequentialTotal (pd.basePrice + pd.optionPriceSum)
      pd.adjustments := by
  have hpd : pd = calculateTotalPriceFor db product pid sels := by
    unfold calculateTotalPrice at heval
    rw [hprod] at heval
    exact (Option.some.inj heval).symm
  subst hpd
  have hsum : (calculateTotalPriceFor db product pid sels).optionPriceSum
      = (sels.map (fun s => optionBasePriceOf db.partOptions s.partOptionId)).sum := by
    rw [calculateTotalPriceFor_optionPriceSum, foldl_add_base_price, zero_add]
    have hex2 : ∀ i ∈ sels.map (fun s => s.partOptionId),
        ∃ o ∈ db.partOptions, o.id = i := by
      intro i hi
      rw [List.mem_map] at hi
      obtain ⟨s, hs, rfl⟩ := hi
      exact hex s hs
    rw [sum_filter_contains (sels.map (fun s => s.partOptionId)) db.partOptions
      hnd hnd2 hex2, List.map_map]
    rfl
  refine ⟨calculateTotalPriceFor_basePrice db product pid sels, hsum,
    calculateTotalPriceFor_adjustments db product pid sels, ?_⟩
  rw [calculateTotalPriceFor_totalPrice, calculateTotalPriceFor_basePrice,
    calculateTotalPriceFor_adjustments]
  rfl

/-- Store for the C3 witness: the spec's worked case — product base
price 100, options 10 and 11 priced 20 and 30, a fixed +10 rule and a
+10% rule both conditioned on the full pair. -/
def wdb3 : DB := { emptyDB with
  products := [⟨1, 100⟩],
  partOptions := [⟨10, 1, 20, true⟩, ⟨11, 1, 30, true⟩],
  pricingRules := [⟨1, 10, false, true⟩, ⟨2, 10, true, true⟩],
  pricingRuleConditions := [⟨1, 10⟩, ⟨1, 11⟩, ⟨2, 10⟩, ⟨2, 11⟩] }

/-- Closed instance of C3, the spec's worked example: basePrice 100,
optionPriceSum 50, the fixed +10 rule applied before the +10% rule,
totalPrice (100 + 50 + 10) × 1.10 = 176. -/
theorem c3_calculateTotalPrice_spec_witness :
    lookupProduct wdb3 1 = some ⟨1, 100⟩ ∧
    (([⟨10⟩, ⟨11⟩] : List Selection).map (fun s => s.partOptionId)).Nodup ∧
    (wdb3.partOptions.map (fun o => o.id)).Nodup ∧
    (∀ s ∈ ([⟨10⟩, ⟨11⟩] : List Selection),
      ∃ o ∈ wdb3.partOptions, o.id = s.partOptionId) ∧
    ∃ pd, calculateTotalPrice wdb3 1 [⟨10⟩, ⟨11⟩] = some pd ∧
      pd.basePrice = 100 ∧ pd.optionPriceSum = 50 ∧
      pd.adjustments = [⟨1, 10, false, true⟩, ⟨2, 10, true, true⟩] ∧
      pd.totalPrice = 176 := by
  have hprod : lookupProduct wdb3 1 = some ⟨1, 100⟩ := rfl
  have heval : calculateTotalPrice wdb3 1 [⟨10⟩, ⟨11⟩]
      = some (calculateTotalPriceFor wdb3 ⟨1, 100⟩ 1 [⟨10⟩, ⟨11⟩]) := by
    unfold calculateTotalPrice
    rw [hprod]
  have hex : ∀ s ∈ ([⟨10⟩, ⟨11⟩] : List Selection),
      ∃ o ∈ wdb3.partOptions, o.id = s.partOptionId := by
    intro s hs
    rcases List.mem_cons.mp hs with rfl | hs2
    · exact ⟨⟨10, 1, 20, true⟩, by decide, rfl⟩
    · rcases List.mem_cons.mp hs2 with rfl | hs3
      · exact ⟨⟨11, 1, 30, true⟩, by decide, rfl⟩
      · exact absurd hs3 (List.not_mem_nil s)
  obtain ⟨h1, h2, h3, h4⟩ := c3_calculateTotalPrice_spec wdb3 1 [⟨10⟩, ⟨11⟩]
    ⟨1, 100⟩ _ hprod heval (by decide) (by decide) hex
  have hmap : ([⟨10⟩, ⟨11⟩] : List Selection).map
      (fun s => optionBasePriceOf wdb3.partOptions s.partOptionId) = [20, 30] := by
    have e10 : optionBasePriceOf wdb3.partOptions 10 = 20 := rfl
    have e11 : optionBasePriceOf wdb3.partOptions 11 = 30 := rfl
    simp [e10, e11]
  have hsum : (calculateTotalPriceFor wdb3 ⟨1, 100⟩ 1 [⟨10⟩, ⟨11⟩]).optionPriceSum
      = 50 := by
    rw [h2, hmap]
    norm_num [List.sum_cons, List.sum_nil]
  have hadj : (calculateTotalPriceFor wdb3 ⟨1, 100⟩ 1 [⟨10⟩, ⟨11⟩]).adjustments
      = [⟨1, 10, false, true⟩, ⟨2, 10, true, true⟩] := by
    rw [h3]
    decide
  refine ⟨hprod, by decide, by decide, hex, _, heval, h1, hsum, hadj, ?_⟩
  rw [h4, h1, hsum, hadj]
  norm_num [specSequentialTotal, List.foldl_cons, List.foldl_nil]
